import Mathlib

/-
Verification of the FCR device-database cache (fbnet/command_runner/device_db.py)
and the service lifecycle controller (fbnet/command_runner/service.py).

The Python classes are shallowly embedded: the mutable object state becomes
explicit state records threaded through pure functions, `async` methods that can
raise become `Except`-valued functions, and the abstract backend method
`_fetch_device_data` becomes an explicit function parameter.
-/

namespace FCR

/-- A device record as seen by the cache.  The Python code reads only the
`hostname` and `alias` attributes of the objects returned by the backend
(`d.hostname`, `d.alias_`); every other attribute is opaque to the cache and is
summarised by `payload`, which lets us distinguish two versions of a record
for the same name.  Python truthiness of `d.alias_` (a string) is `alias != ""`,
so an absent alias is modelled by the empty string. -/
structure Device where
  hostname : String
  alias_ : String
  payload : String
deriving DecidableEq

/-- The in-memory index `self._devices`: a total map from name to an optional
device record (Python dict lookup). -/
def Index : Type := String → Option Device

/-- The empty dict `{}` that `__init__` assigns to `self._devices`. -/
def emptyIndex : Index := fun _ => none

/-- A single dict assignment `self._devices[k] = d`. -/
def updateIndex (m : Index) (k : String) (d : Device) : Index :=
  fun n => if n = k then some d else m n

/-- One iteration of the merge loop in `_fetch_devices`:
`self._devices[d.hostname] = d; if d.alias_: self._devices[d.alias_] = d`. -/
def mergeOne (m : Index) (d : Device) : Index :=
  if d.alias_ ≠ "" then updateIndex (updateIndex m d.hostname d) d.alias_ d
  else updateIndex m d.hostname d

/-- The whole merge loop of `_fetch_devices` over the list returned by the
backend, in list order (later records overwrite earlier ones). -/
def mergeDevices (devs : List Device) (m : Index) : Index :=
  devs.foldl mergeOne m

/-- The mutable state of a `BaseDeviceDB` object: the readiness flag
`self._data_valid` and the index `self._devices`. -/
structure DBState where
  data_valid : Bool
  devices : Index

/-- State set up by `BaseDeviceDB.__init__`: `_data_valid = False`,
`_devices = {}`. -/
def initialDB : DBState := { data_valid := false, devices := emptyIndex }

/-- The abstract backend `_fetch_device_data(name_filter, hostname)`: it may
return a list of devices or raise (modelled by `Except`, with the exception
summarised by a `String`).  Concrete subclasses supply it. -/
def Backend : Type := Option String → Option String → Except String (List Device)

/-- `BaseDeviceDB._fetch_devices(name_filter, hostname)`: call the backend,
propagate its exception unchanged, otherwise merge every returned device into
the index.  On an exception the state of the object is untouched (the merge
loop never runs), which the caller expresses by keeping its old state. -/
def fetchDevices (b : Backend) (name_filter hostname : Option String)
    (st : DBState) : Except String DBState :=
  match b name_filter hostname with
  | Except.error e => Except.error e
  | Except.ok devs => Except.ok { st with devices := mergeDevices devs st.devices }

/-- `BaseDeviceDB.run`: the scheduled bulk refresh.  It calls
`_fetch_devices(name_filter)` (no hostname) and only on success sets
`self._data_valid = True`.  An exception propagates to the periodic-task loop
and leaves the state untouched. -/
def run (b : Backend) (name_filter : Option String) (st : DBState) :
    Except String DBState :=
  match fetchDevices b name_filter none st with
  | Except.error e => Except.error e
  | Except.ok st1 => Except.ok { st1 with data_valid := true }

/-- The two ways `BaseDeviceDB.get` can fail: a backend exception propagating
out of the point fetch, or the `KeyError("Device not found", hostname)` raised
after the final lookup misses. -/
inductive GetError where
  | backendError (msg : String)
  | notFound (hostname : String)
deriving DecidableEq

/-- `BaseDeviceDB.get(device, autofetch)`.  Looks `device.hostname` up in
`self._devices`; if absent and `autofetch` is set, runs
`_fetch_devices(hostname=device.hostname)` first; then looks up again,
returning the record or raising `KeyError("Device not found", hostname)`.
The returned `DBState` is the state of the object after the call, including
the failure cases: a backend exception leaves the original state, while the
not-found exception is raised after the point fetch already merged. -/
def get (b : Backend) (st : DBState) (hostname : String) (autofetch : Bool) :
    Except GetError Device × DBState :=
  match (if (st.devices hostname).isNone && autofetch then
           fetchDevices b none (some hostname) st
         else Except.ok st) with
  | Except.error e => (Except.error (GetError.backendError e), st)
  | Except.ok st1 =>
    match st1.devices hostname with
    | some d => (Except.ok d, st1)
    | none => (Except.error (GetError.notFound hostname), st1)

/-- The operations that can touch a `BaseDeviceDB` object after construction:
a scheduled bulk refresh (`run`, driven by the periodic task), a lookup
(`get`), and `wait_for_data` (which only reads `_data_valid`). -/
inductive Op where
  | bulkRefresh (name_filter : Option String)
  | pointGet (hostname : String) (autofetch : Bool)
  | waitForData

/-- State of the object after one operation.  Exceptions do not destroy the
object: a failed `run` is caught by the periodic-task loop and a failed `get`
raises to its caller, and in both cases the object keeps the state the method
left behind. -/
def applyOp (b : Backend) (st : DBState) : Op → DBState
  | Op.bulkRefresh nf =>
    match run b nf st with
    | Except.ok st1 => st1
    | Except.error _ => st
  | Op.pointGet h a => (get b st h a).2
  | Op.waitForData => st

/-- The states a `BaseDeviceDB` backed by `b` can be in: freshly constructed,
or the result of any sequence of bulk refreshes and lookups. -/
inductive Reachable (b : Backend) : DBState → Prop where
  | init : Reachable b initialDB
  | step (op : Op) {st : DBState} : Reachable b st → Reachable b (applyOp b st op)

/-- `d` is stored in the index under name `n` by a merge of `d`: `n` is the
hostname of `d`, or its alias when that alias is non-empty. -/
def ownsName (d : Device) (n : String) : Prop :=
  n = d.hostname ∨ (d.alias_ ≠ "" ∧ n = d.alias_)

instance (d : Device) (n : String) : Decidable (ownsName d n) := by
  unfold ownsName
  exact inferInstance

/-- Two device records do not tread on each other in the index: either their
name sets are disjoint, or they are two versions of the same record (same
hostname and same alias). -/
def Compatible (d e : Device) : Prop :=
  (∀ n, ownsName d n → ¬ ownsName e n) ∨ (d.hostname = e.hostname ∧ d.alias_ = e.alias_)

/-- `d` can be returned by the backend `b` (in some successful response). -/
def FromBackend (b : Backend) (d : Device) : Prop :=
  ∃ nf hn devs, b nf hn = Except.ok devs ∧ d ∈ devs

/-- A consistent backend: any two devices it can ever return are compatible.
This is the spec hedge that alias collisions across distinct entities happen
"only if the backend itself is inconsistent". -/
def GoodBackend (b : Backend) : Prop :=
  ∀ d e, FromBackend b d → FromBackend b e → Compatible d e

/-- The alias-reachability invariant of the index: every stored record sits
only under its own names, is reachable under its own hostname, and, when its
alias is non-empty, under that alias as well — both pointing at the very same
record version. -/
def SelfIndexed (m : Index) : Prop :=
  ∀ n d, m n = some d →
    ownsName d n ∧ m d.hostname = some d ∧ (d.alias_ ≠ "" → m d.alias_ = some d)

/-- Outcome of the bounded wait on `CommandSession.wait_sessions` inside
`_clean_shutdown`: either all sessions drained within `exit_max_wait`, or
`asyncio.wait_for` raised `TimeoutError`. -/
inductive DrainOutcome where
  | drained
  | timedOut
deriving DecidableEq

/-- Observable state of an `FcrServiceBase` object and its event loop:
the `self._shutting_down` flag, whether a `_clean_shutdown` task has been
scheduled and is still pending, whether `terminate` has cancelled all
outstanding tasks, whether the loop has been stopped, whether the
drain-timeout error has been logged, the installed logging level, and whether
the signal handlers were armed. -/
structure ServiceState where
  shutting_down : Bool
  drain_pending : Bool
  all_tasks_cancelled : Bool
  loop_stopped : Bool
  timeout_logged : Bool
  installed_log_level : Option Nat
  handlers_armed : Bool
deriving DecidableEq

/-- `FcrServiceBase.terminate`: cancel every outstanding task and stop the
event loop. -/
def terminate (s : ServiceState) : ServiceState :=
  { s with all_tasks_cancelled := true, loop_stopped := true }

/-- `FcrServiceBase.shutdown`: on the first call set `_shutting_down` and
schedule the asynchronous `_clean_shutdown`; on any later call escalate by
calling `terminate` directly. -/
def shutdown (s : ServiceState) : ServiceState :=
  if s.shutting_down = false then
    { s with shutting_down := true, drain_pending := true }
  else
    terminate s

/-- `FcrServiceBase._clean_shutdown`, run when the scheduled drain task
resolves: waiting for the sessions either succeeds or times out; a timeout is
logged as an error and swallowed; the `finally` block calls `terminate` in
every case. -/
def cleanShutdown (outcome : DrainOutcome) (s : ServiceState) : ServiceState :=
  let s1 :=
    match outcome with
    | DrainOutcome.drained => s
    | DrainOutcome.timedOut => { s with timeout_logged := true }
  terminate { s1 with drain_pending := false }

/-- Python `str.upper()` restricted to what the level names need: upper-case
every character (the recognized level names are ASCII, where `Char.toUpper`
and Python agree). -/
def upperName (s : String) : String :=
  String.mk (s.data.map Char.toUpper)

/-- The integer-valued upper-case attributes of the Python `logging` module,
i.e. exactly the names `getattr(logging, level_name.upper(), None)` can
resolve to an `int` after upper-casing. -/
def logLevelOf (level_name : String) : Option Nat :=
  match upperName level_name with
  | "CRITICAL" => some 50
  | "FATAL" => some 50
  | "ERROR" => some 40
  | "WARNING" => some 30
  | "WARN" => some 30
  | "INFO" => some 20
  | "DEBUG" => some 10
  | "NOTSET" => some 0
  | _ => none

/-- `FcrServiceBase._init_logging`: resolve the configured level name; raise
`ValueError` when it does not resolve to an integer level, otherwise install
the level via `logging.basicConfig`. -/
def initLogging (log_level : String) : Except String Nat :=
  match logLevelOf log_level with
  | some lvl => Except.ok lvl
  | none => Except.error (String.append ("Invalid log level: ") log_level)

/-- `FcrServiceBase.__init__` for the parts relevant here: clear
`_shutting_down`, run `_init_logging` (whose `ValueError` propagates and
aborts construction before the service starts), then arm the SIGINT/SIGTERM
handlers. -/
def initService (log_level : String) : Except String ServiceState :=
  match initLogging log_level with
  | Except.error e => Except.error e
  | Except.ok lvl =>
    Except.ok
      { shutting_down := false
        drain_pending := false
        all_tasks_cancelled := false
        loop_stopped := false
        timeout_logged := false
        installed_log_level := some lvl
        handlers_armed := true }

/-! ### Lemmas about the merge loop -/

theorem updateIndex_self (m : Index) (k : String) (d : Device) :
    updateIndex m k d k = some d := by
  simp [updateIndex]

theorem updateIndex_other (m : Index) (k : String) (d : Device) (n : String)
    (h : n ≠ k) : updateIndex m k d n = m n := by
  simp [updateIndex, h]

theorem mergeOne_owned (m : Index) (d : Device) (n : String)
    (h : ownsName d n) : mergeOne m d n = some d := by
  unfold mergeOne updateIndex
  rcases h with h | ⟨ha, h⟩
  · subst h
    split_ifs
    all_goals simp_all
  · subst h
    split_ifs
    all_goals simp_all

theorem mergeOne_not_owned (m : Index) (d : Device) (n : String)
    (h : ¬ ownsName d n) : mergeOne m d n = m n := by
  unfold ownsName at h
  push_neg at h
  unfold mergeOne updateIndex
  split_ifs with hal
  · simp [h.1, h.2 hal]
  · simp [h.1]

theorem mergeOne_eq (m : Index) (d : Device) (n : String) :
    mergeOne m d n = if ownsName d n then some d else m n := by
  by_cases h : ownsName d n
  · rw [if_pos h]
    exact mergeOne_owned m d n h
  · rw [if_neg h]
    exact mergeOne_not_owned m d n h

theorem mergeDevices_nil (m : Index) : mergeDevices [] m = m := rfl

theorem mergeDevices_cons (d : Device) (devs : List Device) (m : Index) :
    mergeDevices (d :: devs) m = mergeDevices devs (mergeOne m d) := rfl

theorem mergeDevices_not_owned (devs : List Device) (m : Index) (n : String)
    (h : ∀ d ∈ devs, ¬ ownsName d n) : mergeDevices devs m n = m n := by
  induction devs generalizing m with
  | nil => rfl
  | cons d devs ih =>
    rw [mergeDevices_cons,
        ih (mergeOne m d) (fun e he => h e (List.mem_cons_of_mem d he))]
    exact mergeOne_not_owned m d n (h d (List.mem_cons_self d devs))

theorem mergeOne_isSome (m : Index) (d : Device) (n : String)
    (h : (m n).isSome = true) : ((mergeOne m d) n).isSome = true := by
  rw [mergeOne_eq]
  split_ifs
  · rfl
  · exact h

theorem mergeDevices_isSome (devs : List Device) (m : Index) (n : String)
    (h : (m n).isSome = true) : ((mergeDevices devs m) n).isSome = true := by
  induction devs generalizing m with
  | nil => exact h
  | cons d devs ih =>
    rw [mergeDevices_cons]
    exact ih (mergeOne m d) (mergeOne_isSome m d n h)

theorem mergeDevices_owned_isSome (devs : List Device) (m : Index) (n : String)
    (h : ∃ d ∈ devs, ownsName d n) : ((mergeDevices devs m) n).isSome = true := by
  induction devs generalizing m with
  | nil => exact absurd h (by simp)
  | cons d devs ih =>
    rw [mergeDevices_cons]
    by_cases hd : ∃ e ∈ devs, ownsName e n
    · exact ih (mergeOne m d) hd
    · have hown : ownsName d n := by
        rcases h with ⟨e, he, hoe⟩
        rcases List.mem_cons.mp he with rfl | he
        · exact hoe
        · exact absurd ⟨e, he, hoe⟩ hd
      apply mergeDevices_isSome
      rw [mergeOne_owned m d n hown]
      rfl

theorem mergeOne_lookup_mem (m : Index) (d : Device) (n : String) (e : Device)
    (h : mergeOne m d n = some e) : e = d ∨ m n = some e := by
  rw [mergeOne_eq] at h
  split_ifs at h
  · exact Or.inl (Option.some.inj h).symm
  · exact Or.inr h

theorem mergeDevices_lookup_mem (devs : List Device) (m : Index) (n : String)
    (e : Device) (h : mergeDevices devs m n = some e) : e ∈ devs ∨ m n = some e := by
  induction devs generalizing m with
  | nil => exact Or.inr h
  | cons d devs ih =>
    rw [mergeDevices_cons] at h
    rcases ih (mergeOne m d) h with hmem | hone
    · exact Or.inl (List.mem_cons_of_mem d hmem)
    · rcases mergeOne_lookup_mem m d n e hone with heq | hm
      · subst heq
        exact Or.inl (List.mem_cons_self _ _)
      · exact Or.inr hm

/-! ### Lemmas unfolding the cache operations -/

theorem get_hit (b : Backend) (st : DBState) (hn : String) (a : Bool) (d : Device)
    (hd : st.devices hn = some d) : get b st hn a = (Except.ok d, st) := by
  unfold get
  rw [hd]
  simp [hd]

theorem get_noauto (b : Backend) (st : DBState) (hn : String)
    (hd : st.devices hn = none) :
    get b st hn false = (Except.error (GetError.notFound hn), st) := by
  unfold get
  rw [hd]
  simp [hd]

theorem fetchDevices_ok (b : Backend) (nf hn : Option String) (st : DBState)
    (devs : List Device) (hb : b nf hn = Except.ok devs) :
    fetchDevices b nf hn st =
      Except.ok { st with devices := mergeDevices devs st.devices } := by
  unfold fetchDevices
  rw [hb]

theorem fetchDevices_error (b : Backend) (nf hn : Option String) (st : DBState)
    (e : String) (hb : b nf hn = Except.error e) :
    fetchDevices b nf hn st = Except.error e := by
  unfold fetchDevices
  rw [hb]

theorem run_ok (b : Backend) (nf : Option String) (st : DBState)
    (devs : List Device) (hb : b nf none = Except.ok devs) :
    run b nf st =
      Except.ok { st with data_valid := true, devices := mergeDevices devs st.devices } := by
  unfold run
  rw [fetchDevices_ok b nf none st devs hb]

theorem run_error (b : Backend) (nf : Option String) (st : DBState)
    (e : String) (hb : b nf none = Except.error e) :
    run b nf st = Except.error e := by
  unfold run
  rw [fetchDevices_error b nf none st e hb]

theorem run_ok_inv (b : Backend) (nf : Option String) (st st1 : DBState)
    (h : run b nf st = Except.ok st1) :
    ∃ devs, b nf none = Except.ok devs ∧
      st1 = { st with data_valid := true, devices := mergeDevices devs st.devices } := by
  cases hb : b nf none with
  | error e => rw [run_error b nf st e hb] at h; cases h
  | ok devs =>
    rw [run_ok b nf st devs hb] at h
    exact ⟨devs, rfl, (Except.ok.inj h).symm⟩

theorem get_miss_fetch_ok (b : Backend) (st : DBState) (hn : String)
    (devs : List Device) (hmiss : st.devices hn = none)
    (hb : b none (some hn) = Except.ok devs) :
    get b st hn true =
      ((match mergeDevices devs st.devices hn with
        | some d => Except.ok d
        | none => Except.error (GetError.notFound hn)),
       { st with devices := mergeDevices devs st.devices }) := by
  unfold get
  rw [hmiss]
  simp only [Option.isNone_none, Bool.true_and, if_pos]
  rw [fetchDevices_ok b none (some hn) st devs hb]
  cases hl : mergeDevices devs st.devices hn <;> simp [hl]

theorem get_miss_fetch_error (b : Backend) (st : DBState) (hn : String)
    (e : String) (hmiss : st.devices hn = none)
    (hb : b none (some hn) = Except.error e) :
    get b st hn true = (Except.error (GetError.backendError e), st) := by
  unfold get
  rw [hmiss]
  simp only [Option.isNone_none, Bool.true_and, if_pos]
  rw [fetchDevices_error b none (some hn) st e hb]

theorem get_state_cases (b : Backend) (st : DBState) (hn : String) (a : Bool) :
    (get b st hn a).2 = st ∨
    ∃ devs, b none (some hn) = Except.ok devs ∧
      (get b st hn a).2 = { st with devices := mergeDevices devs st.devices } := by
  unfold get
  by_cases hc : ((st.devices hn).isNone && a) = true
  · rw [if_pos hc]
    cases hb : b none (some hn) with
    | error e =>
      rw [fetchDevices_error b none (some hn) st e hb]
      exact Or.inl rfl
    | ok devs =>
      rw [fetchDevices_ok b none (some hn) st devs hb]
      refine Or.inr ⟨devs, rfl, ?_⟩
      cases hl : mergeDevices devs st.devices hn <;> simp [hl]
  · rw [if_neg hc]
    cases hl : st.devices hn <;> simp [hl]

theorem get_data_valid (b : Backend) (st : DBState) (hn : String) (a : Bool) :
    ((get b st hn a).2).data_valid = st.data_valid := by
  rcases get_state_cases b st hn a with h | ⟨devs, _, h⟩ <;> rw [h]

/-! ### Preservation of the alias-reachability invariant -/

theorem selfIndexed_empty : SelfIndexed emptyIndex := by
  intro n d h
  cases h

theorem ownsName_congr (d e : Device) (hh : e.hostname = d.hostname)
    (ha : e.alias_ = d.alias_) (n : String) (h : ownsName e n) : ownsName d n := by
  unfold ownsName at h ⊢
  rw [hh, ha] at h
  exact h

theorem mergeOne_selfIndexed (m : Index) (d : Device) (hm : SelfIndexed m)
    (hc : ∀ n e, m n = some e → Compatible e d) : SelfIndexed (mergeOne m d) := by
  intro n e he
  rw [mergeOne_eq] at he
  split_ifs at he with ho
  · -- the name is one of the names of `d`, so the stored record is `d`
    cases Option.some.inj he
    refine ⟨ho, ?_, ?_⟩
    · rw [mergeOne_eq, if_pos (show ownsName d d.hostname from Or.inl rfl)]
    · intro ha
      rw [mergeOne_eq, if_pos (show ownsName d d.alias_ from Or.inr ⟨ha, rfl⟩)]
  · -- the name is untouched by the merge of `d`
    obtain ⟨hown, hh, hal⟩ := hm n e he
    have hnd : ∀ k, ownsName e k → ¬ ownsName d k := by
      intro k hek hdk
      rcases hc n e he with hdisj | ⟨hh2, ha2⟩
      · exact hdisj k hek hdk
      · exact ho (ownsName_congr d e hh2 ha2 n hown)
    refine ⟨hown, ?_, ?_⟩
    · rw [mergeOne_eq, if_neg (hnd e.hostname (Or.inl rfl))]
      exact hh
    · intro ha
      rw [mergeOne_eq, if_neg (hnd e.alias_ (Or.inr ⟨ha, rfl⟩))]
      exact hal ha

/-- Every record in the index was returned by the backend at some point. -/
def IndexFrom (b : Backend) (m : Index) : Prop :=
  ∀ n d, m n = some d → FromBackend b d

theorem mergeOne_indexFrom (b : Backend) (m : Index) (d : Device)
    (hd : FromBackend b d) (hm : IndexFrom b m) : IndexFrom b (mergeOne m d) := by
  intro n e he
  rw [mergeOne_eq] at he
  split_ifs at he
  · cases Option.some.inj he
    exact hd
  · exact hm n e he

theorem mergeDevices_selfIndexed (b : Backend) (hg : GoodBackend b)
    (devs : List Device) (hdevs : ∀ d ∈ devs, FromBackend b d) (m : Index)
    (hm : SelfIndexed m) (hmf : IndexFrom b m) :
    SelfIndexed (mergeDevices devs m) ∧ IndexFrom b (mergeDevices devs m) := by
  induction devs generalizing m with
  | nil => exact ⟨hm, hmf⟩
  | cons d devs ih =>
    rw [mergeDevices_cons]
    have hd : FromBackend b d := hdevs d (List.mem_cons_self d devs)
    refine ih (fun e he => hdevs e (List.mem_cons_of_mem d he)) (mergeOne m d) ?_ ?_
    · exact mergeOne_selfIndexed m d hm (fun n e he => hg e d (hmf n e he) hd)
    · exact mergeOne_indexFrom b m d hd hmf

theorem reachable_selfIndexed (b : Backend) (hg : GoodBackend b) (st : DBState)
    (h : Reachable b st) : SelfIndexed st.devices ∧ IndexFrom b st.devices := by
  induction h with
  | init => exact ⟨selfIndexed_empty, fun n d hd => absurd hd (by simp [initialDB, emptyIndex])⟩
  | step op h ih =>
    rename_i st0
    obtain ⟨hsi, hif⟩ := ih
    cases op with
    | bulkRefresh nf =>
      cases hr : run b nf st0 with
      | error e =>
        simp only [applyOp, hr]
        exact ⟨hsi, hif⟩
      | ok st1 =>
        obtain ⟨devs, hb, rfl⟩ := run_ok_inv b nf st0 st1 hr
        simp only [applyOp, hr]
        exact mergeDevices_selfIndexed b hg devs
          (fun d hd => ⟨nf, none, devs, hb, hd⟩) st0.devices hsi hif
    | pointGet hn a =>
      rcases get_state_cases b st0 hn a with hc | ⟨devs, hb, hc⟩
      · simp only [applyOp, hc]
        exact ⟨hsi, hif⟩
      · simp only [applyOp, hc]
        exact mergeDevices_selfIndexed b hg devs
          (fun d hd => ⟨none, some hn, devs, hb, hd⟩) st0.devices hsi hif
    | waitForData =>
      simp only [applyOp]
      exact ⟨hsi, hif⟩

/-! ### Claim theorems for the device database -/

/-- Claim C1: `get(name, autofetch)` first looks the name up in the index and,
on a hit, returns the cached record with the state untouched; with
`autofetch = false` it makes no backend call at all (its outcome does not
depend on the backend) and a miss fails immediately with the not-found error
carrying the requested name; on a miss with `autofetch = true` it performs a
single targeted backend fetch for that name, merges the returned records with
the very same `mergeDevices` the bulk path (`run`) uses, retries the lookup,
and fails with the not-found error carrying the name when it still misses. -/
theorem get_lookup_spec :
    (∀ (b : Backend) (st : DBState) (hn : String) (a : Bool) (d : Device),
        st.devices hn = some d → get b st hn a = (Except.ok d, st)) ∧
    (∀ (b1 b2 : Backend) (st : DBState) (hn : String),
        get b1 st hn false = get b2 st hn false) ∧
    (∀ (b : Backend) (st : DBState) (hn : String),
        st.devices hn = none →
          get b st hn false = (Except.error (GetError.notFound hn), st)) ∧
    (∀ (b : Backend) (st : DBState) (nf : Option String) (devs : List Device),
        b nf none = Except.ok devs →
          run b nf st =
            Except.ok { st with data_valid := true,
                                devices := mergeDevices devs st.devices }) ∧
    (∀ (b : Backend) (st : DBState) (hn : String) (devs : List Device),
        st.devices hn = none → b none (some hn) = Except.ok devs →
          get b st hn true =
            ((match mergeDevices devs st.devices hn with
              | some d => Except.ok d
              | none => Except.error (GetError.notFound hn)),
             { st with devices := mergeDevices devs st.devices })) := by
  refine ⟨get_hit, ?_, ?_, ?_, get_miss_fetch_ok⟩
  · intro b1 b2 st hn
    cases hd : st.devices hn with
    | some d => rw [get_hit b1 st hn false d hd, get_hit b2 st hn false d hd]
    | none => rw [get_noauto b1 st hn hd, get_noauto b2 st hn hd]
  · intro b st hn hd
    exact get_noauto b st hn hd
  · intro b st nf devs hb
    exact run_ok b nf st devs hb

/-- Witness for claim C1: a concrete miss with `autofetch = false` on the
freshly constructed cache fails with the not-found error and leaves the state
alone. -/
theorem get_lookup_spec_witness :
    get (fun _ _ => Except.error ("down")) initialDB ("unknown") false =
      (Except.error (GetError.notFound ("unknown")), initialDB) :=
  get_lookup_spec.2.2.1 (fun _ _ => Except.error ("down")) initialDB ("unknown") rfl

/-- Claim C2: the readiness flag `_data_valid` is false at construction, is set
exactly by a bulk refresh (`run`) that completes without error, is untouched by
`get`, is left untouched by a failing bulk refresh, and is never reset by any
later operation once true. -/
theorem data_valid_monotone :
    initialDB.data_valid = false ∧
    (∀ (b : Backend) (nf : Option String) (st st1 : DBState),
        run b nf st = Except.ok st1 → st1.data_valid = true) ∧
    (∀ (b : Backend) (nf : Option String) (st : DBState) (e : String),
        run b nf st = Except.error e → applyOp b st (Op.bulkRefresh nf) = st) ∧
    (∀ (b : Backend) (st : DBState) (hn : String) (a : Bool),
        ((get b st hn a).2).data_valid = st.data_valid) ∧
    (∀ (b : Backend) (st : DBState) (op : Op),
        st.data_valid = true → (applyOp b st op).data_valid = true) := by
  refine ⟨rfl, ?_, ?_, get_data_valid, ?_⟩
  · intro b nf st st1 h
    obtain ⟨devs, hb, rfl⟩ := run_ok_inv b nf st st1 h
    rfl
  · intro b nf st e h
    simp only [applyOp, h]
  · intro b st op hv
    cases op with
    | bulkRefresh nf =>
      cases hr : run b nf st with
      | error e => simp only [applyOp, hr]; exact hv
      | ok st1 =>
        obtain ⟨devs, hb, rfl⟩ := run_ok_inv b nf st st1 hr
        simp only [applyOp, hr]
    | pointGet hn a =>
      simp only [applyOp]
      rw [get_data_valid b st hn a]
      exact hv
    | waitForData =>
      simp only [applyOp]
      exact hv

/-- Witness for claim C2: a bulk refresh that raises against an already-ready
state leaves the readiness flag true. -/
theorem data_valid_monotone_witness :
    (applyOp (fun _ _ => Except.error ("down"))
        { data_valid := true, devices := emptyIndex }
        (Op.bulkRefresh none)).data_valid = true :=
  data_valid_monotone.2.2.2.2 (fun _ _ => Except.error ("down"))
    { data_valid := true, devices := emptyIndex } (Op.bulkRefresh none) rfl

/-- Claim C7: the index is monotonically enriched and never pruned — every
operation (bulk refresh, point fetch, lookup) maps a superset of the names
mapped before it. -/
theorem index_monotone :
    ∀ (b : Backend) (st : DBState) (op : Op) (n : String),
      ((st.devices n).isSome = true) → (((applyOp b st op).devices n).isSome = true) := by
  intro b st op n h
  cases op with
  | bulkRefresh nf =>
    cases hr : run b nf st with
    | error e => simp only [applyOp, hr]; exact h
    | ok st1 =>
      obtain ⟨devs, hb, rfl⟩ := run_ok_inv b nf st st1 hr
      simp only [applyOp, hr]
      exact mergeDevices_isSome devs st.devices n h
  | pointGet hn a =>
    rcases get_state_cases b st hn a with hc | ⟨devs, hb, hc⟩
    · simp only [applyOp, hc]
      exact h
    · simp only [applyOp, hc]
      exact mergeDevices_isSome devs st.devices n h
  | waitForData =>
    simp only [applyOp]
    exact h

/-- Witness for claim C7: a point fetch that merges a fresh record keeps the
already-present name mapped. -/
theorem index_monotone_witness :
    (((applyOp (fun _ _ => Except.ok [⟨"h2", "", "p2"⟩])
        { data_valid := false, devices := mergeOne emptyIndex ⟨"h1", "", "p1"⟩ }
        (Op.pointGet ("h2") true)).devices) ("h1")).isSome = true :=
  index_monotone (fun _ _ => Except.ok [⟨"h2", "", "p2"⟩])
    { data_valid := false, devices := mergeOne emptyIndex ⟨"h1", "", "p1"⟩ }
    (Op.pointGet ("h2") true) ("h1") (by decide)

/-- Claim C10: a backend exception propagates out of `_fetch_devices` before
any merging, so a failed bulk refresh leaves the object state exactly as it
was (index and readiness flag), and a failed point fetch inside `get` reports
the backend error with the original state. -/
theorem backend_failure_atomic :
    (∀ (b : Backend) (nf hn : Option String) (st : DBState) (e : String),
        b nf hn = Except.error e → fetchDevices b nf hn st = Except.error e) ∧
    (∀ (b : Backend) (nf : Option String) (st : DBState) (e : String),
        b nf none = Except.error e →
          run b nf st = Except.error e ∧ applyOp b st (Op.bulkRefresh nf) = st) ∧
    (∀ (b : Backend) (st : DBState) (hn : String) (e : String),
        st.devices hn = none → b none (some hn) = Except.error e →
          get b st hn true = (Except.error (GetError.backendError e), st)) := by
  refine ⟨fetchDevices_error, ?_, get_miss_fetch_error⟩
  intro b nf st e hb
  have hr := run_error b nf st e hb
  exact ⟨hr, by simp only [applyOp, hr]⟩

/-- Witness for claim C10: a raising backend leaves `_fetch_devices` raising
the same exception on the fresh cache. -/
theorem backend_failure_atomic_witness :
    fetchDevices (fun _ _ => Except.error ("down")) none none initialDB =
      Except.error ("down") :=
  backend_failure_atomic.1 (fun _ _ => Except.error ("down")) none none initialDB
    ("down") rfl

/-- Claim C9: a point fetch indexes returned records only under their own
hostname and non-empty alias, never under the requested name as such: when the
requested name is absent, `get` succeeds exactly when some returned record
carries that name as hostname or non-empty alias, and when none does the
records are still merged but `get` raises the not-found error. -/
theorem point_fetch_indexing :
    ∀ (b : Backend) (st : DBState) (x : String) (devs : List Device),
      st.devices x = none → b none (some x) = Except.ok devs →
      ((∃ d, (get b st x true).1 = Except.ok d) ↔ ∃ d ∈ devs, ownsName d x) ∧
      ((∀ d ∈ devs, ¬ ownsName d x) →
        get b st x true =
          (Except.error (GetError.notFound x),
           { st with devices := mergeDevices devs st.devices })) := by
  intro b st x devs hmiss hb
  have hget := get_miss_fetch_ok b st x devs hmiss hb
  constructor
  · constructor
    · rintro ⟨d, hd⟩
      by_contra hnone
      push_neg at hnone
      have hl : mergeDevices devs st.devices x = st.devices x :=
        mergeDevices_not_owned devs st.devices x hnone
      rw [hmiss] at hl
      rw [hget] at hd
      simp only [hl] at hd
      cases hd
    · intro hx
      have hs := mergeDevices_owned_isSome devs st.devices x hx
      obtain ⟨d, hd⟩ := Option.isSome_iff_exists.mp hs
      refine ⟨d, ?_⟩
      rw [hget]
      simp only [hd]
  · intro hnone
    have hl : mergeDevices devs st.devices x = st.devices x :=
      mergeDevices_not_owned devs st.devices x hnone
    rw [hget, hl, hmiss]

/-- Witness for claim C9: a targeted fetch for a name the returned record does
not carry merges the record but still raises not-found. -/
theorem point_fetch_indexing_witness :
    get (fun _ _ => Except.ok [⟨"h1", "", "p1"⟩]) initialDB ("h2") true =
      (Except.error (GetError.notFound ("h2")),
       { initialDB with
           devices := mergeDevices [⟨"h1", "", "p1"⟩] initialDB.devices }) :=
  (point_fetch_indexing (fun _ _ => Except.ok [⟨"h1", "", "p1"⟩]) initialDB
    ("h2") [⟨"h1", "", "p1"⟩] rfl rfl).2 (by decide)

/-- Claim C3 as stated is refuted: merging a backend response in which one
record's hostname collides with another record's alias (an inconsistent
backend, which nothing in the code rules out) yields a reachable state whose
index stores a record with a non-empty alias that is not reachable under that
alias. -/
theorem alias_reachability_counterexample :
    let b : Backend := fun _ _ => Except.ok [⟨"h1", "a1", "p1"⟩, ⟨"a1", "", "p2"⟩]
    let st := applyOp b initialDB (Op.bulkRefresh none)
    st.devices ("h1") = some ⟨"h1", "a1", "p1"⟩ ∧
    (⟨"h1", "a1", "p1"⟩ : Device).alias_ ≠ "" ∧
    st.devices ("a1") ≠ some ⟨"h1", "a1", "p1"⟩ := by
  decide

/-- Claim C3 (amended): provided the backend is consistent — any two records
it ever returns either have disjoint name sets or agree on hostname and alias
— every reachable index state is self-indexed: each stored record sits only
under its own names, is reachable under its own hostname and, when its alias
is non-empty, under that alias, with both mappings returning the very same
record version. -/
theorem alias_reachability :
    ∀ (b : Backend) (st : DBState),
      GoodBackend b → Reachable b st →
      SelfIndexed st.devices ∧
      (∀ n d, st.devices n = some d → d.alias_ ≠ "" →
        st.devices d.hostname = st.devices d.alias_) := by
  intro b st hg hr
  obtain ⟨hsi, _⟩ := reachable_selfIndexed b hg st hr
  refine ⟨hsi, ?_⟩
  intro n d hd ha
  obtain ⟨_, hh, hal⟩ := hsi n d hd
  rw [hh, hal ha]

/-- Witness for claim C3 (amended): after a bulk refresh from a consistent
one-record backend, the hostname and the alias resolve to the same record. -/
theorem alias_reachability_witness :
    ((applyOp (fun _ _ => Except.ok [⟨"h1", "a1", "p1"⟩]) initialDB
        (Op.bulkRefresh none)).devices) ("h1") =
    ((applyOp (fun _ _ => Except.ok [⟨"h1", "a1", "p1"⟩]) initialDB
        (Op.bulkRefresh none)).devices) ("a1") := by
  have hg : GoodBackend (fun _ _ => Except.ok [⟨"h1", "a1", "p1"⟩]) := by
    intro d e hd he
    obtain ⟨nf1, hn1, devs1, hdevs1, hmem1⟩ := hd
    obtain ⟨nf2, hn2, devs2, hdevs2, hmem2⟩ := he
    cases hdevs1
    cases hdevs2
    simp only [List.mem_singleton] at hmem1 hmem2
    subst hmem1
    subst hmem2
    exact Or.inr ⟨rfl, rfl⟩
  exact (alias_reachability (fun _ _ => Except.ok [⟨"h1", "a1", "p1"⟩]) _ hg
    (Reachable.step (Op.bulkRefresh none) Reachable.init)).2
    ("h1") ⟨"h1", "a1", "p1"⟩ (by decide) (by decide)

/-- Claim C6 as stated is refuted: a backend whose targeted fetch for the name
R1 returns exactly one record — but one that carries a different hostname and
no alias — makes `get` on the empty cache raise not-found instead of
succeeding. -/
theorem point_fetch_merge_counterexample :
    (get (fun _ _ => Except.ok [⟨"x1", "", "p1"⟩]) initialDB ("R1") true).1 =
      Except.error (GetError.notFound ("R1")) := rfl

/-- Claim C6 (amended): starting from the empty cache, if the targeted backend
fetch for the name R1 returns exactly one record that itself carries the name
R1 (as its hostname or non-empty alias), then `get` for R1 succeeds with that
record and a subsequent `get` with `autofetch = false` succeeds with the
now-cached value. -/
theorem point_fetch_merge :
    ∀ (b : Backend) (e : Device),
      b none (some ("R1")) = Except.ok [e] → ownsName e ("R1") →
      (get b initialDB ("R1") true).1 = Except.ok e ∧
      get b ((get b initialDB ("R1") true).2) ("R1") false =
        (Except.ok e, (get b initialDB ("R1") true).2) := by
  intro b e hb hown
  have hmiss : initialDB.devices ("R1") = none := rfl
  have hget := get_miss_fetch_ok b initialDB ("R1") [e] hmiss hb
  have hl : mergeDevices [e] initialDB.devices ("R1") = some e := by
    rw [mergeDevices_cons, mergeDevices_nil]
    exact mergeOne_owned initialDB.devices e ("R1") hown
  constructor
  · rw [hget]
    simp [hl]
  · have hst : ((get b initialDB ("R1") true).2).devices ("R1") = some e := by
      rw [hget]
      exact hl
    exact get_hit b _ ("R1") false e hst

/-- Witness for claim C6 (amended): a backend whose targeted fetch returns the
R1 record makes the autofetching `get` succeed. -/
theorem point_fetch_merge_witness :
    (get (fun _ _ => Except.ok [⟨"R1", "", "p1"⟩]) initialDB ("R1") true).1 =
      Except.ok ⟨"R1", "", "p1"⟩ :=
  (point_fetch_merge (fun _ _ => Except.ok [⟨"R1", "", "p1"⟩]) ⟨"R1", "", "p1"⟩
    rfl (by decide)).1

/-! ### Claim theorems for the lifecycle controller -/

/-- Claim C4: the first `shutdown` call only sets the shutting-down flag and
schedules the asynchronous drain, leaving tasks running and the loop alive;
a second `shutdown` call while the drain is still pending invokes `terminate`
directly — cancelling all outstanding tasks and stopping the loop — instead of
waiting out the drain. -/
theorem double_shutdown_escalates :
    ∀ s : ServiceState, s.shutting_down = false →
      shutdown s = { s with shutting_down := true, drain_pending := true } ∧
      (shutdown s).all_tasks_cancelled = s.all_tasks_cancelled ∧
      (shutdown s).loop_stopped = s.loop_stopped ∧
      shutdown (shutdown s) = terminate (shutdown s) ∧
      (shutdown (shutdown s)).all_tasks_cancelled = true ∧
      (shutdown (shutdown s)).loop_stopped = true := by
  intro s hs
  have hterm : ∀ t : ServiceState, t.shutting_down = true → shutdown t = terminate t := by
    intro t ht
    unfold shutdown
    rw [ht]
    simp
  have h1 : shutdown s = { s with shutting_down := true, drain_pending := true } := by
    unfold shutdown
    rw [if_pos hs]
  have h2 : (shutdown s).shutting_down = true := by rw [h1]
  refine ⟨h1, by rw [h1], by rw [h1], hterm _ h2, ?_, ?_⟩
  · rw [hterm _ h2]
    rfl
  · rw [hterm _ h2]
    rfl

/-- Witness for claim C4: from the freshly constructed controller, two
`shutdown` calls cancel the tasks and stop the loop. -/
theorem double_shutdown_escalates_witness :
    (shutdown (shutdown ⟨false, false, false, false, false, none, true⟩)).loop_stopped
      = true :=
  (double_shutdown_escalates ⟨false, false, false, false, false, none, true⟩
    rfl).2.2.2.2.2

/-- Claim C5: the graceful-drain phase always ends in termination — whether
the bounded wait for the sessions drains or times out, `terminate` runs and
cancels all tasks and stops the loop; the timeout is logged as an error, not
raised, and a clean drain logs nothing. -/
theorem drain_always_terminates :
    ∀ (outcome : DrainOutcome) (s : ServiceState),
      (cleanShutdown outcome s).all_tasks_cancelled = true ∧
      (cleanShutdown outcome s).loop_stopped = true ∧
      (cleanShutdown DrainOutcome.timedOut s).timeout_logged = true ∧
      (cleanShutdown DrainOutcome.drained s).timeout_logged = s.timeout_logged := by
  intro outcome s
  cases outcome <;> exact ⟨rfl, rfl, rfl, rfl⟩

/-- Claim C8: construction fails at startup with the `ValueError` naming the
configured level when the log verbosity name is unrecognized, and otherwise
installs the resolved level and proceeds with the shutting-down flag clear and
the signal handlers armed. -/
theorem log_level_validation :
    ∀ (log_level : String),
      (logLevelOf log_level = none →
        initService log_level =
          Except.error (String.append ("Invalid log level: ") log_level)) ∧
      (∀ lvl, logLevelOf log_level = some lvl →
        initService log_level =
          Except.ok { shutting_down := false, drain_pending := false,
                      all_tasks_cancelled := false, loop_stopped := false,
                      timeout_logged := false, installed_log_level := some lvl,
                      handlers_armed := true }) := by
  intro log_level
  constructor
  · intro h
    unfold initService initLogging
    rw [h]
  · intro lvl h
    unfold initService initLogging
    rw [h]

/-- Witness for claim C8: the recognized name info installs level 20 and the
unrecognized name Bogus aborts construction with the `ValueError`. -/
theorem log_level_validation_witness :
    initService ("info") =
      Except.ok { shutting_down := false, drain_pending := false,
                  all_tasks_cancelled := false, loop_stopped := false,
                  timeout_logged := false, installed_log_level := some 20,
                  handlers_armed := true } ∧
    initService ("Bogus") =
      Except.error (String.append ("Invalid log level: ") ("Bogus")) :=
  ⟨(log_level_validation ("info")).2 20 (by decide),
   (log_level_validation ("Bogus")).1 (by decide)⟩

end FCR
